import Mathlib

/-!
Shallow embedding of the core of the voice-agent appointment-scheduling
backend (Go sources under `internal/`): the availability checker
(`middleware.CheckSlotAvailability`), the tool executor
(`tools/executor.go`), the conversation turn engine (`llm.Chat`), the
session orchestrator (`agent/agent.go`) and the reminder scheduler
(`reminder/reminder.go`).

Modelling conventions:
- instants are `Int` minutes since an arbitrary epoch; Go `time.Time`
  comparison (`Before`/`After`) becomes `<`/`>` on `Int`, and
  `t.Add(d * time.Minute)` becomes `t + d`;
- the data store and the network collaborators are passed in as explicit
  functions returning `Except DBErr _` (Go `(value, error)` pairs);
- a Go function that returns `(result, nil)` with a `success:false` map is
  a business failure (`.failure msg`); a non-nil Go `error` is the
  `Except.error` case.
-/

namespace VoiceAgent

/-- Appointment status (Go `models.StatusBooked` etc., stored as strings). -/
inductive AptStatus
  | booked
  | cancelled
  | completed
deriving DecidableEq, Repr

/-- `models.Appointment`: the fields read or written by the embedded code. -/
structure Appointment where
  id : String
  userPhone : String
  userName : String
  dateTime : Int
  duration : Int
  purpose : String
  notes : String
  status : AptStatus
deriving DecidableEq, Repr

/-- Infrastructure (data-store / network) failure. -/
inductive DBErr
  | network
deriving DecidableEq, Repr

/-- The PostgREST query `status=eq.booked&date_time=lt.<requestedEnd>` issued by
`CheckSlotAvailability`: booked appointments starting before the cutoff. -/
def fetchBookedStartingBefore (store : List Appointment) (cutoff : Int) : List Appointment :=
  store.filter (fun a => decide (a.status = AptStatus.booked) && decide (a.dateTime < cutoff))

/-- `SupabaseClient.CheckSlotAvailability` (middleware.go), successful-fetch path:
fetch booked appointments starting before `requestedEnd`, return `false`
(unavailable) iff one of them overlaps `[dateTime, dateTime+duration)` under
half-open semantics. -/
def checkSlotAvailability (store : List Appointment) (dateTime duration : Int) : Bool :=
  let requestedStart := dateTime
  let requestedEnd := dateTime + duration
  let appointments := fetchBookedStartingBefore store requestedEnd
  !(appointments.any (fun apt =>
      decide (apt.dateTime < requestedEnd) && decide (apt.dateTime + apt.duration > requestedStart)))

/-! ## Tool executor (`internal/tools/executor.go`) -/

/-- `models.User`: the fields read or written by `identifyUser`. -/
structure User where
  id : String
  phoneNumber : String
  name : String
deriving DecidableEq, Repr

/-- `normalizePhoneNumber` (executor.go): keep a `+` only at position 0 and
keep every decimal digit; drop everything else. -/
def normalizePhoneNumber (phone : String) : String :=
  String.mk ((phone.toList.enum.filter (fun p =>
    (p.2 == '+' && p.1 == 0) || (decide ('0' ≤ p.2) && decide (p.2 ≤ '9')))).map Prod.snd)

/-- The `success:true` payload returned by `identifyUser`. -/
structure IdentifyPayload where
  userId : String
  phoneNumber : String
  name : String
  isNewUser : Bool
deriving DecidableEq, Repr

/-- Result of `identifyUser` together with its data-store effects:
`created` is the argument of the `CreateUser` call (if any), `updated` the
argument of the name-backfill `UpdateUser` call (if any, its error ignored). -/
structure IdentifyResult where
  payload : IdentifyPayload
  created : Option User
  updated : Option User
deriving DecidableEq, Repr

/-- `identifyUser` (executor.go lines 104-150). `phoneArg`/`nameArg` model
`args["phone_number"]`/`args["name"]` (`none` = absent; a missing `name`
string-asserts to `""`). `lookup` is `database.DB.GetUserByPhone`, `create`
is `database.DB.CreateUser`, `newId` the fresh uuid. -/
def identifyUser (lookup : String → Except DBErr (Option User))
    (create : User → Except DBErr Unit) (newId : String)
    (phoneArg nameArg : Option String) : Except String IdentifyResult :=
  match phoneArg with
  | none => Except.error "phone_number is required"
  | some phoneRaw =>
    if phoneRaw == "" then Except.error "phone_number is required"
    else
      let name := nameArg.getD ""
      let phone := normalizePhoneNumber phoneRaw
      match lookup phone with
      | Except.error _ => Except.error "failed to check user"
      | Except.ok none =>
        let user : User := { id := newId, phoneNumber := phone, name := name }
        match create user with
        | Except.error _ => Except.error "failed to create user"
        | Except.ok _ =>
          Except.ok
            { payload :=
                { userId := user.id, phoneNumber := user.phoneNumber, name := user.name,
                  isNewUser := user.name == name && name != "" },
              created := some user, updated := none }
      | Except.ok (some u) =>
        let user := if name != "" && u.name == "" then { u with name := name } else u
        Except.ok
          { payload :=
              { userId := user.id, phoneNumber := user.phoneNumber, name := user.name,
                isNewUser := user.name == name && name != "" },
            created := none,
            updated := if name != "" && u.name == "" then some user else none }

/-- One slot entry returned by `fetchSlots`. -/
structure Slot where
  dateTime : Int
  available : Bool
  duration : Int
deriving DecidableEq, Repr

/-- The candidate slot starts of `fetchSlots`: every half hour from 9:00 to
16:30 of the day starting at `dayStart` (minutes). -/
def slotTimes (dayStart : Int) : List Int :=
  ((List.range 8).map (fun h => (9 + h : Int))).flatMap
    (fun h => [dayStart + h * 60, dayStart + h * 60 + 30])

/-- `fetchSlots` (executor.go lines 152-205), slot-generation core: skip slots
whose start has passed; for each remaining slot consult
`CheckSlotAvailability` with duration 30, and on a check error default the
slot to available (`available = true` — the Go comment says
"Default to available on error"). -/
def fetchSlots (check : Int → Int → Except DBErr Bool) (dayStart now : Int) : List Slot :=
  (slotTimes dayStart).filterMap (fun t =>
    if t < now then none
    else
      let available :=
        match check t 30 with
        | Except.error _ => true
        | Except.ok b => b
      some { dateTime := t, available := available, duration := 30 })

/-- Structured business outcome of `bookAppointment`. -/
inductive BookOutcome
  | failure (error : String)
  | success (apt : Appointment)
deriving DecidableEq, Repr

/-- `bookAppointment` (executor.go lines 207-279). `check` is
`database.DB.CheckSlotAvailability`, `create` is `CreateAppointment`;
`dateTimeArg` is the parsed `date_time` argument, `durationArg` the optional
`duration` (default 30). -/
def bookAppointment (check : Int → Int → Except DBErr Bool)
    (create : Appointment → Except DBErr Unit)
    (userPhone userName : String) (now : Int) (newId : String)
    (dateTimeArg durationArg : Option Int)
    (purposeArg notesArg : Option String) : Except String BookOutcome :=
  if userPhone == "" then
    Except.ok (BookOutcome.failure
      "User not identified. Please identify the user first by asking for their phone number.")
  else
    match dateTimeArg with
    | none => Except.error "date_time is required"
    | some dateTime =>
      if dateTime < now then
        Except.ok (BookOutcome.failure "Cannot book appointments in the past")
      else
        let duration := durationArg.getD 30
        match check dateTime duration with
        | Except.error _ => Except.error "failed to check availability"
        | Except.ok false =>
          Except.ok (BookOutcome.failure
            "This time slot is already booked. Please choose another time.")
        | Except.ok true =>
          let apt : Appointment :=
            { id := newId, userPhone := userPhone, userName := userName,
              dateTime := dateTime, duration := duration,
              purpose := purposeArg.getD "", notes := notesArg.getD "",
              status := AptStatus.booked }
          match create apt with
          | Except.error _ => Except.error "failed to book appointment"
          | Except.ok _ => Except.ok (BookOutcome.success apt)

/-- Arguments of `modifyAppointment`. `none` models an absent argument (or,
for the string fields, the empty string, which the Go code treats as absent). -/
structure ModifyArgs where
  newDateTime : Option Int
  newDuration : Option Int
  newPurpose : Option String
  newNotes : Option String
deriving DecidableEq, Repr

/-- Structured business outcome of `modifyAppointment`: on success the list of
reported changes and the appointment passed to `UpdateAppointment`. -/
inductive ModifyOutcome
  | failure (error : String)
  | success (changes : List String) (updated : Appointment)
deriving DecidableEq, Repr

/-- The duration/purpose/notes branches of `modifyAppointment` (executor.go
lines 472-511) followed by the `modified` check and the `UpdateAppointment`
commit. -/
def modifyApplyRest (update : Appointment → Except DBErr Unit)
    (apt0 : Appointment) (modified0 : Bool) (changes0 : List String)
    (args : ModifyArgs) : Except String ModifyOutcome :=
  let step1 : Appointment × Bool × List String :=
    match args.newDuration with
    | some d =>
      if d != apt0.duration then
        ({ apt0 with duration := d }, true, changes0 ++ ["duration changed"])
      else (apt0, modified0, changes0)
    | none => (apt0, modified0, changes0)
  let step2 : Appointment × Bool × List String :=
    match args.newPurpose with
    | some p => ({ step1.1 with purpose := p }, true, step1.2.2 ++ ["purpose updated"])
    | none => step1
  let step3 : Appointment × Bool × List String :=
    match args.newNotes with
    | some s => ({ step2.1 with notes := s }, true, step2.2.2 ++ ["notes updated"])
    | none => step2
  if !step3.2.1 then Except.ok (ModifyOutcome.failure "No changes specified")
  else
    match update step3.1 with
    | Except.error _ => Except.error "failed to modify appointment"
    | Except.ok _ => Except.ok (ModifyOutcome.success step3.2.2 step3.1)

/-- `modifyAppointment` (executor.go lines 392-512). `fetched` models the
`GetAppointmentByID` result, `check` is `CheckSlotAvailability`, `update` is
`UpdateAppointment`, `now` is `time.Now()`. Note that availability and
future-ness are only consulted inside the `new_date_time` branch. -/
def modifyAppointment (check : Int → Int → Except DBErr Bool)
    (update : Appointment → Except DBErr Unit)
    (userPhone : String) (now : Int)
    (fetched : Except DBErr (Option Appointment))
    (args : ModifyArgs) : Except String ModifyOutcome :=
  if userPhone == "" then
    Except.ok (ModifyOutcome.failure "User not identified. Please identify the user first.")
  else
    match fetched with
    | Except.error _ => Except.error "failed to get appointment"
    | Except.ok none => Except.ok (ModifyOutcome.failure "Appointment not found")
    | Except.ok (some apt0) =>
      if apt0.userPhone != userPhone then
        Except.ok (ModifyOutcome.failure "You can only modify your own appointments")
      else if apt0.status == AptStatus.cancelled then
        Except.ok (ModifyOutcome.failure "Cannot modify a cancelled appointment")
      else
        match args.newDateTime with
        | some t =>
          if t < now then
            Except.ok (ModifyOutcome.failure "Cannot reschedule to a past time")
          else
            let duration := (args.newDuration.getD apt0.duration)
            match check t duration with
            | Except.error _ => Except.error "failed to check availability"
            | Except.ok false =>
              Except.ok (ModifyOutcome.failure "The new time slot is not available")
            | Except.ok true =>
              modifyApplyRest update { apt0 with dateTime := t } true ["rescheduled"] args
        | none => modifyApplyRest update apt0 false [] args

/-! ## Conversation turn engine (`internal/services/llm/llm.go`, `Chat`) -/

/-- One tool request inside a model response. -/
structure ToolCallReq where
  id : String
  name : String
  args : String
deriving DecidableEq, Repr

/-- One scripted response of the language-model collaborator: either plain
content (no tool calls) or a batch of tool requests. -/
structure ModelResponse where
  content : String
  toolCalls : List ToolCallReq
deriving DecidableEq, Repr

/-- What `Chat` extracts from a successful tool execution: whether the result
map carries `should_end == true`. -/
structure ExecResult where
  shouldEndFlag : Bool
deriving DecidableEq, Repr

/-- Observable events of one `Chat` invocation: a `CreateChatCompletion` call
(with or without the tool catalog) or one tool execution. -/
inductive ChatEvent
  | completion (withTools : Bool)
  | toolExec (name : String)
deriving DecidableEq, Repr

/-- The `Response` struct returned by `Chat` (content and should-end flag). -/
structure ChatResponse where
  content : String
  shouldEnd : Bool
deriving DecidableEq, Repr

/-- The tool-execution loop inside `Chat` (llm.go lines 200-227): execute every
tool call of the batch in order (a failing tool does not abort the rest), and
record whether some successful `end_conversation` call returned
`should_end = true`. The executor is stateful (`σ`). -/
def runBatch {σ : Type} (exec : σ → ToolCallReq → Except String ExecResult × σ) :
    σ → List ToolCallReq → List ChatEvent × Bool × σ
  | s, [] => ([], false, s)
  | s, tc :: rest =>
    let r := exec s tc
    let flag :=
      match r.1 with
      | Except.ok res => tc.name == "end_conversation" && res.shouldEndFlag
      | Except.error _ => false
    let next := runBatch exec r.2 rest
    (ChatEvent.toolExec tc.name :: next.1, flag || next.2.1, next.2.2)

/-- Content of the closing utterance: the next scripted response if the final
no-tool completion call succeeds, the hard-coded fallback if it fails
(llm.go lines 232-256). -/
def chatFinalContent (rest : List ModelResponse) : String :=
  match rest with
  | [] => "Thank you for calling. Goodbye!"
  | r2 :: _ => r2.content

/-- The `Chat` loop (llm.go lines 174-269) over a script of model responses
(an exhausted script models a `CreateChatCompletion` error). Returns the
event trace and the final outcome. -/
def chatLoop {σ : Type} (exec : σ → ToolCallReq → Except String ExecResult × σ) :
    σ → List ModelResponse → List ChatEvent × Except String ChatResponse
  | _, [] => ([], Except.error "chat completion failed")
  | s, r :: rest =>
    if r.toolCalls.isEmpty then
      ([ChatEvent.completion true], Except.ok { content := r.content, shouldEnd := false })
    else
      let batch := runBatch exec s r.toolCalls
      if batch.2.1 then
        (ChatEvent.completion true :: batch.1 ++ [ChatEvent.completion false],
         Except.ok { content := chatFinalContent rest, shouldEnd := true })
      else
        let next := chatLoop exec batch.2.2 rest
        (ChatEvent.completion true :: batch.1 ++ next.1, next.2)

/-! ## Session orchestrator (`internal/agent/agent.go`) -/

/-- A conversation message (role, content). -/
structure Msg where
  role : String
  content : String
deriving DecidableEq, Repr

/-- The `VoiceAgent` fields the embedded operations touch: the processing
guard, the conversation history, the termination flag, and a counter of how
many times the summary pipeline (`endConversation`) has been run. -/
structure AgentSt where
  isProcessing : Bool
  messages : List Msg
  shouldEnd : Bool
  summaryRuns : Nat
deriving DecidableEq, Repr

/-- `ProcessUserInput` (agent.go lines 239-305): if a turn is in flight the
transcript is dropped (state unchanged, no turn started, nothing queued);
otherwise append the user message, run the turn engine (`llmResult`), append
the assistant message, and if the response signals end set the termination
flag and run the summary pipeline. The returned `Bool` is whether a turn
engine invocation started. -/
def processUserInput (a : AgentSt) (text : String)
    (llmResult : Except String ChatResponse) : AgentSt × Bool :=
  if a.isProcessing then (a, false)
  else
    let a1 := { a with isProcessing := true,
                       messages := a.messages ++ [({ role := "user", content := text } : Msg)] }
    match llmResult with
    | Except.error _ => ({ a1 with isProcessing := false }, true)
    | Except.ok resp =>
      let a2 := { a1 with
        messages := a1.messages ++ [({ role := "assistant", content := resp.content } : Msg)] }
      if resp.shouldEnd then
        ({ a2 with shouldEnd := true, summaryRuns := a2.summaryRuns + 1,
                   isProcessing := false }, true)
      else ({ a2 with isProcessing := false }, true)

/-- `EndCall` (agent.go lines 497-507): if the termination flag is already set,
return without re-running the summary pipeline; otherwise set it and run the
pipeline. -/
def endCall (a : AgentSt) : AgentSt :=
  if a.shouldEnd then a
  else { a with shouldEnd := true, summaryRuns := a.summaryRuns + 1 }

/-! ## Reminder scheduler (`internal/services/reminder/reminder.go`) -/

/-- The three reminder thresholds. -/
inductive RemType
  | h24
  | h1
  | onDay
deriving DecidableEq, Repr

/-- `ReminderRecord.RemindersSent`: which thresholds have already fired. -/
structure RemRecord where
  sent24 : Bool
  sent1 : Bool
  sentDay : Bool
deriving DecidableEq, Repr

/-- Read one threshold flag of a record. -/
def RemRecord.sent (r : RemRecord) : RemType → Bool
  | RemType.h24 => r.sent24
  | RemType.h1 => r.sent1
  | RemType.onDay => r.sentDay

/-- The tracking map `reminders`, as an association list keyed by appointment
id (Go map keys are unique; theorems assume `Nodup` keys). -/
abbrev RemState := List (String × RemRecord)

/-- `isNextDay` (reminder.go): the two instants fall on different calendar
days; in the minutes-since-epoch model, different 1440-minute days. -/
def isNextDay (now aptTime : Int) : Bool :=
  Int.fdiv now 1440 != Int.fdiv aptTime 1440

/-- The inputs one `checkReminders` tick reads from outside the tracking map:
the current instant and the `GetAppointmentByID` fetch. -/
structure TickInput where
  now : Int
  fetch : String → Except DBErr (Option Appointment)

/-- The firing condition of each threshold check in `checkReminders`
(reminder.go lines 126, 132, 138): the threshold has not been sent and the
time-until-start `t` (minutes) is inside the threshold's window
(`24h + 1min`, `1h + 1min`, and `≤ 24h` on a different calendar day). -/
def fireCond (t : Int) (nextDay : Bool) (rec : RemRecord) : RemType → Bool
  | RemType.h24 => !rec.sent24 && decide (0 < t) && decide (t ≤ 24 * 60 + 1)
  | RemType.h1 => !rec.sent1 && decide (0 < t) && decide (t ≤ 60 + 1)
  | RemType.onDay => !rec.sentDay && decide (0 < t) && decide (t ≤ 24 * 60) && nextDay

/-- Processing of a single tracked appointment inside `checkReminders`
(reminder.go lines 110-147): on fetch error keep the entry untouched; drop it
if the appointment is gone or not booked; otherwise fire every threshold whose
flag is unset and whose time-until-start condition holds, mark the fired
thresholds (`markReminderSent`), and drop the entry if the appointment time
has passed. Returns the surviving entry and the fired
`(appointmentId, threshold)` events. -/
def processEntry (inp : TickInput) (e : String × RemRecord) :
    Option (String × RemRecord) × List (String × RemType) :=
  match inp.fetch e.1 with
  | Except.error _ => (some e, [])
  | Except.ok none => (none, [])
  | Except.ok (some apt) =>
    if apt.status != AptStatus.booked then (none, [])
    else
      let t := apt.dateTime - inp.now
      let nd := isNextDay inp.now apt.dateTime
      let f24 := fireCond t nd e.2 RemType.h24
      let f1 := fireCond t nd e.2 RemType.h1
      let fDay := fireCond t nd e.2 RemType.onDay
      let rec2 : RemRecord :=
        { sent24 := e.2.sent24 || f24, sent1 := e.2.sent1 || f1,
          sentDay := e.2.sentDay || fDay }
      let evs := (if f24 then [(e.1, RemType.h24)] else []) ++
        (if f1 then [(e.1, RemType.h1)] else []) ++
        (if fDay then [(e.1, RemType.onDay)] else [])
      if t < 0 then (none, evs) else (some (e.1, rec2), evs)

/-- One `checkReminders` tick over the whole tracking map. -/
def tick (inp : TickInput) : RemState → RemState × List (String × RemType)
  | [] => ([], [])
  | e :: rest =>
    let p := processEntry inp e
    let next := tick inp rest
    (match p.1 with
     | some e2 => e2 :: next.1
     | none => next.1, p.2 ++ next.2)

/-- A run of the scheduler: the concatenated fired events of a sequence of
ticks. -/
def runTicks : List TickInput → RemState → List (String × RemType)
  | [], _ => []
  | inp :: more, s =>
    let st := tick inp s
    st.2 ++ runTicks more st.1

/-- How many times the event `(id, th)` occurs in a fired-event list. -/
def countEv (evs : List (String × RemType)) (id : String) (th : RemType) : Nat :=
  (evs.filter (fun p => decide (p = (id, th)))).length

/-- A sample booked appointment used in concrete evaluations. -/
def aptA : Appointment :=
  { id := "a1", userPhone := "+15551230000", userName := "Pat", dateTime := 100,
    duration := 30, purpose := "checkup", notes := "", status := AptStatus.booked }

/-! ## Theorems -/

/-- C1: for every stored appointment set and every requested interval,
`CheckSlotAvailability` returns `true` (available) iff no booked appointment
overlaps the requested interval under half-open semantics
(`candidateStart < requestedEnd ∧ candidateEnd > requestedStart`); in
particular an appointment ending exactly at the requested start, or starting
exactly at the requested end, does not count as an overlap. -/
theorem checkSlotAvailability_iff_no_overlap (store : List Appointment) (s d : Int) :
    checkSlotAvailability store s d = true ↔
      ∀ a ∈ store, a.status = AptStatus.booked →
        ¬(a.dateTime < s + d ∧ a.dateTime + a.duration > s) := by
  simp only [checkSlotAvailability, fetchBookedStartingBefore, Bool.not_eq_true',
    List.any_eq_false, List.mem_filter, Bool.and_eq_true, decide_eq_true_eq, not_and,
    and_imp]
  constructor
  · intro h a ha hb hlt hgt
    exact h a ha hb hlt hlt hgt
  · intro h a ha hb _ hlt hgt
    exact h a ha hb hlt hgt

/-- Witness for C1 at a concrete store: `aptA` occupies `[100, 130)`, so the
boundary request `[130, 160)` is available. -/
theorem checkSlotAvailability_iff_no_overlap_witness :
    checkSlotAvailability [aptA] 130 30 = true :=
  (checkSlotAvailability_iff_no_overlap [aptA] 130 30).mpr (by decide)

/-- C3: at the failing input — an unknown phone number and no name — the code
does not return a "new caller, name required" signal: it creates a caller
record with an empty name and returns success (first conjunct), even though
the repository's own system prompt (llm.go) tells the model to expect a
"name is required for new registration" error for new callers. When a name is
supplied for an unknown phone, a caller record carrying the name is created
and success is returned (second conjunct, the half of the claim the code
does satisfy). -/
theorem identify_unknown_phone_no_name_succeeds :
    identifyUser (fun _ => Except.ok none) (fun _ => Except.ok ()) "uid-1"
        (some "+15551234567") none
      = Except.ok
          { payload := { userId := "uid-1", phoneNumber := "+15551234567", name := "",
                         isNewUser := false },
            created := some { id := "uid-1", phoneNumber := "+15551234567", name := "" },
            updated := none }
    ∧ identifyUser (fun _ => Except.ok none) (fun _ => Except.ok ()) "uid-1"
        (some "+15551234567") (some "Jane Doe")
      = Except.ok
          { payload := { userId := "uid-1", phoneNumber := "+15551234567", name := "Jane Doe",
                         isNewUser := true },
            created := some { id := "uid-1", phoneNumber := "+15551234567", name := "Jane Doe" },
            updated := none } :=
  ⟨rfl, rfl⟩

/-- C2 counterexample: a modify that supplies only `new_duration` commits the
update and reports success even though the availability oracle would have
failed on any consultation (it always returns a store error here) and the
appointment's start (100) is already in the past (now = 200): no availability
re-check and no future-ness re-validation happens for a duration-only
modify. -/
theorem modify_duration_only_commits_without_recheck :
    modifyAppointment (fun _ _ => Except.error DBErr.network) (fun _ => Except.ok ())
        "+15551230000" 200 (Except.ok (some aptA))
        { newDateTime := none, newDuration := some 60, newPurpose := none, newNotes := none }
      = Except.ok (ModifyOutcome.success ["duration changed"] { aptA with duration := 60 }) :=
  rfl

/-- C4 counterexample: when the availability check fails with a store error for
every slot, `fetchSlots` still reports the 9:00 slot (and every other slot)
with `available = true` — a data-store failure is converted into an
availability answer instead of being propagated. -/
theorem fetchSlots_error_reports_available :
    (fetchSlots (fun _ _ => Except.error DBErr.network) 0 0).head? =
        some { dateTime := 540, available := true, duration := 30 }
    ∧ (fetchSlots (fun _ _ => Except.error DBErr.network) 0 0).all (fun s => s.available)
        = true :=
  ⟨rfl, rfl⟩

/-- C6 counterexample: two successive model-signaled end triggers run the
summary pipeline twice — the model-signaled path of `ProcessUserInput` sets
the termination flag but never checks it, so termination is not idempotent for
a second model-signaled trigger. -/
theorem second_model_end_reruns_summary :
    ((processUserInput
        (processUserInput
          { isProcessing := false, messages := [], shouldEnd := false, summaryRuns := 0 }
          "please hang up" (Except.ok { content := "bye", shouldEnd := true })).1
        "anyone there" (Except.ok { content := "bye again", shouldEnd := true })).1).summaryRuns
      = 2 :=
  rfl

/-- C8: while the processing flag is set, a newly arriving finalized
transcript is dropped: the session state is returned unchanged (no user
message appended, nothing queued — the state holds no queue) and no
turn-engine invocation starts (the returned flag is `false`). -/
theorem processing_flag_drops_transcript (a : AgentSt) (text : String)
    (r : Except String ChatResponse) (h : a.isProcessing = true) :
    processUserInput a text r = (a, false) := by
  simp [processUserInput, h]

/-- Witness for C8 at a concrete in-flight session. -/
theorem processing_flag_drops_transcript_witness :
    processUserInput { isProcessing := true, messages := [], shouldEnd := false, summaryRuns := 0 }
        "hello" (Except.ok { content := "c", shouldEnd := false })
      = ({ isProcessing := true, messages := [], shouldEnd := false, summaryRuns := 0 }, false) :=
  processing_flag_drops_transcript _ "hello" _ rfl

/-- C9: a modify by an identified owner of a non-cancelled appointment that
supplies only `new_notes` succeeds, is reported as the change
"notes updated", and commits an appointment identical to the original except
for the notes (in particular `date_time` and `duration` are unchanged); a
modify that supplies no recognized field returns the structured
"No changes specified" failure — not success — and performs no update (the
result does not depend on the `update` collaborator). -/
theorem modify_notes_only_and_no_changes
    (check : Int → Int → Except DBErr Bool) (update : Appointment → Except DBErr Unit)
    (userPhone : String) (now : Int) (apt0 : Appointment) (s : String)
    (hp : userPhone ≠ "") (hown : apt0.userPhone = userPhone)
    (hst : apt0.status ≠ AptStatus.cancelled)
    (hup : update { apt0 with notes := s } = Except.ok ()) :
    modifyAppointment check update userPhone now (Except.ok (some apt0))
        { newDateTime := none, newDuration := none, newPurpose := none, newNotes := some s }
      = Except.ok (ModifyOutcome.success ["notes updated"] { apt0 with notes := s })
    ∧ modifyAppointment check update userPhone now (Except.ok (some apt0))
        { newDateTime := none, newDuration := none, newPurpose := none, newNotes := none }
      = Except.ok (ModifyOutcome.failure "No changes specified") := by
  rw [hown] at hup
  constructor
  · simp [modifyAppointment, modifyApplyRest, hp, hown, hst, hup]
  · simp [modifyAppointment, modifyApplyRest, hp, hown, hst]

/-- Witness for C9 at a concrete owner, appointment and notes string. -/
theorem modify_notes_only_and_no_changes_witness :
    modifyAppointment (fun _ _ => Except.ok true) (fun _ => Except.ok ())
        "+15551230000" 0 (Except.ok (some aptA))
        { newDateTime := none, newDuration := none, newPurpose := none,
          newNotes := some "bring records" }
      = Except.ok (ModifyOutcome.success ["notes updated"] { aptA with notes := "bring records" })
    ∧ modifyAppointment (fun _ _ => Except.ok true) (fun _ => Except.ok ())
        "+15551230000" 0 (Except.ok (some aptA))
        { newDateTime := none, newDuration := none, newPurpose := none, newNotes := none }
      = Except.ok (ModifyOutcome.failure "No changes specified") :=
  modify_notes_only_and_no_changes (fun _ _ => Except.ok true) (fun _ => Except.ok ())
    "+15551230000" 0 aptA "bring records" (by decide) rfl (by decide) rfl

/-- Helper: the duration/purpose/notes tail of `modifyAppointment` never
changes the appointment's start instant. -/
theorem modifyApplyRest_dateTime (update : Appointment → Except DBErr Unit)
    (apt : Appointment) (m : Bool) (ch : List String) (args : ModifyArgs)
    (c : List String) (a : Appointment)
    (h : modifyApplyRest update apt m ch args = Except.ok (ModifyOutcome.success c a)) :
    a.dateTime = apt.dateTime := by
  unfold modifyApplyRest at h
  rcases args with ⟨nd, ndur, np, nn⟩
  dsimp at h
  cases ndur <;> cases np <;> cases nn <;> dsimp at h <;> (repeat' split at h) <;>
    (try simp_all) <;> (obtain ⟨h1, h2⟩ := h; subst h2; rfl)

/-- C2 (amended): `modifyAppointment` re-validates future-ness and re-checks
availability for `[newStart, newStart + duration)` (with `new_duration` taken
into account when also supplied) only when `new_date_time` is supplied: a
successful modify with a new time implies the new start was not in the past
and the availability check returned available (first conjunct); when
`new_date_time` is absent — in particular for a duration-only modify — the
outcome is independent of the availability oracle and of the clock, i.e. no
re-check and no future-ness validation happens (second conjunct). -/
theorem modify_rechecks_only_when_new_time_supplied :
    (∀ (check : Int → Int → Except DBErr Bool) (update : Appointment → Except DBErr Unit)
        (userPhone : String) (now : Int) (apt0 : Appointment) (args : ModifyArgs)
        (t : Int) (c : List String) (a : Appointment),
        args.newDateTime = some t →
        modifyAppointment check update userPhone now (Except.ok (some apt0)) args
          = Except.ok (ModifyOutcome.success c a) →
        ¬t < now ∧ check t (args.newDuration.getD apt0.duration) = Except.ok true
          ∧ a.dateTime = t)
    ∧ (∀ (check check2 : Int → Int → Except DBErr Bool)
        (update : Appointment → Except DBErr Unit) (userPhone : String) (now now2 : Int)
        (fetched : Except DBErr (Option Appointment)) (args : ModifyArgs),
        args.newDateTime = none →
        modifyAppointment check update userPhone now fetched args
          = modifyAppointment check2 update userPhone now2 fetched args) := by
  constructor
  · intro check update userPhone now apt0 args t c a hdt h
    unfold modifyAppointment at h
    rw [hdt] at h
    dsimp at h
    split at h
    · exact absurd h (by simp)
    · split at h
      · exact absurd h (by simp)
      · split at h
        · exact absurd h (by simp)
        · split at h
          · exact absurd h (by simp)
          · rename_i hnow
            split at h
            · exact absurd h (by simp)
            · exact absurd h (by simp)
            · rename_i hcheck
              exact ⟨hnow, hcheck, by simpa using modifyApplyRest_dateTime _ _ _ _ _ _ _ h⟩
  · intro check check2 update userPhone now now2 fetched args hdt
    cases fetched with
    | error e => simp [modifyAppointment]
    | ok o =>
      cases o with
      | none => simp [modifyAppointment]
      | some apt0 => simp [modifyAppointment, hdt]

/-- Witness for C2 (amended) at concrete inputs: a successful reschedule to
t = 300 with an always-available oracle, and a duration-only modify whose
result coincides under two different oracles and clocks. -/
theorem modify_rechecks_only_when_new_time_supplied_witness :
    (¬(300 : Int) < 0 ∧ (fun _ _ => Except.ok true : Int → Int → Except DBErr Bool) 300
        ((some (45 : Int)).getD aptA.duration) = Except.ok true
      ∧ ({ aptA with dateTime := 300, duration := 45 } : Appointment).dateTime = 300)
    ∧ modifyAppointment (fun _ _ => Except.error DBErr.network) (fun _ => Except.ok ())
        "+15551230000" 0 (Except.ok (some aptA))
        { newDateTime := none, newDuration := some 45, newPurpose := none, newNotes := none }
      = modifyAppointment (fun _ _ => Except.ok false) (fun _ => Except.ok ())
        "+15551230000" 999 (Except.ok (some aptA))
        { newDateTime := none, newDuration := some 45, newPurpose := none, newNotes := none } :=
  ⟨modify_rechecks_only_when_new_time_supplied.1 (fun _ _ => Except.ok true)
      (fun _ => Except.ok ()) "+15551230000" 0 aptA
      { newDateTime := some 300, newDuration := some 45, newPurpose := none, newNotes := none }
      300 ["rescheduled", "duration changed"] { aptA with dateTime := 300, duration := 45 }
      rfl rfl,
    modify_rechecks_only_when_new_time_supplied.2 (fun _ _ => Except.error DBErr.network)
      (fun _ _ => Except.ok false) (fun _ => Except.ok ()) "+15551230000" 0 999
      (Except.ok (some aptA))
      { newDateTime := none, newDuration := some 45, newPurpose := none, newNotes := none }
      rfl⟩

/-- C4 (amended): `bookAppointment` treats a data-store failure of the
availability check as a hard error — the error is propagated and no
appointment is created, whatever the `create` collaborator would do (first
conjunct); `fetchSlots` does not: a generated slot whose availability check
fails with a store error is reported with `available = true` (second
conjunct). -/
theorem book_propagates_check_error_fetchSlots_defaults :
    (∀ (check : Int → Int → Except DBErr Bool) (create : Appointment → Except DBErr Unit)
        (userPhone userName : String) (now : Int) (newId : String)
        (dt : Int) (durArg : Option Int) (purposeArg notesArg : Option String),
        userPhone ≠ "" → ¬dt < now →
        check dt (durArg.getD 30) = Except.error DBErr.network →
        bookAppointment check create userPhone userName now newId (some dt) durArg
            purposeArg notesArg
          = Except.error "failed to check availability")
    ∧ (∀ (check : Int → Int → Except DBErr Bool) (dayStart now t : Int) (e : DBErr),
        t ∈ slotTimes dayStart → ¬t < now → check t 30 = Except.error e →
        ({ dateTime := t, available := true, duration := 30 } : Slot)
          ∈ fetchSlots check dayStart now) := by
  constructor
  · intro check create userPhone userName now newId dt durArg purposeArg notesArg hp hnow herr
    simp [bookAppointment, hp, hnow, herr]
  · intro check dayStart now t e ht hnow herr
    refine List.mem_filterMap.mpr ⟨t, ht, ?_⟩
    simp [hnow, herr]

/-- Witness for C4 (amended): a booking over an erroring store fails hard,
and the 9:00 slot is reported available under an erroring store. -/
theorem book_propagates_check_error_fetchSlots_defaults_witness :
    bookAppointment (fun _ _ => Except.error DBErr.network) (fun _ => Except.ok ())
        "+15551230000" "Pat" 0 "b1" (some 540) none none none
      = Except.error "failed to check availability"
    ∧ ({ dateTime := 540, available := true, duration := 30 } : Slot)
        ∈ fetchSlots (fun _ _ => Except.error DBErr.network) 0 0 :=
  ⟨book_propagates_check_error_fetchSlots_defaults.1 (fun _ _ => Except.error DBErr.network)
      (fun _ => Except.ok ()) "+15551230000" "Pat" 0 "b1" 540 none none none
      (by decide) (by decide) rfl,
    book_propagates_check_error_fetchSlots_defaults.2 (fun _ _ => Except.error DBErr.network)
      0 0 540 DBErr.network (by decide) (by decide) rfl⟩

/-- C6 (amended): the manual end-call trigger is idempotent — `EndCall`
observes the termination flag and returns without re-running the summary
pipeline (first conjunct), so a model-signaled end followed by a manual
end-call runs the pipeline exactly once (second conjunct); the model-signaled
path itself, however, never observes the flag (see the counterexample
theorem), so only the manual second trigger is guarded. -/
theorem manual_end_call_idempotent :
    (∀ a : AgentSt, a.shouldEnd = true → endCall a = a)
    ∧ (∀ (a : AgentSt) (text c : String), a.isProcessing = false →
        (processUserInput a text (Except.ok { content := c, shouldEnd := true })).1.summaryRuns
            = a.summaryRuns + 1
          ∧ (endCall
              (processUserInput a text (Except.ok { content := c, shouldEnd := true })).1).summaryRuns
            = a.summaryRuns + 1) := by
  constructor
  · intro a h
    simp [endCall, h]
  · intro a text c h
    simp [processUserInput, endCall, h]

/-- Witness for C6 (amended) at a fresh concrete session. -/
theorem manual_end_call_idempotent_witness :
    (endCall
        { isProcessing := false, messages := [], shouldEnd := true, summaryRuns := 1 }
      = { isProcessing := false, messages := [], shouldEnd := true, summaryRuns := 1 })
    ∧ (endCall
        (processUserInput
          { isProcessing := false, messages := [], shouldEnd := false, summaryRuns := 0 }
          "bye now" (Except.ok { content := "bye", shouldEnd := true })).1).summaryRuns = 0 + 1 :=
  ⟨manual_end_call_idempotent.1 _ rfl,
    (manual_end_call_idempotent.2
      { isProcessing := false, messages := [], shouldEnd := false, summaryRuns := 0 }
      "bye now" "bye" rfl).2⟩

/-- C10: on every successful identify, `is_new_user` equals "the supplied name
is non-empty and the (post-create/post-backfill) caller record's name equals
the supplied name" (first conjunct); consequently a genuinely new caller
created from a bare phone number is reported with `is_new_user = false` even
though a record was created (second conjunct), and an existing caller who
supplies exactly their stored name is reported with `is_new_user = true` even
though no record was created (third conjunct) — the flag is not "a record was
created by this call". -/
theorem isNewUser_eq_stored_name_match :
    (∀ (lookup : String → Except DBErr (Option User)) (create : User → Except DBErr Unit)
        (newId : String) (phoneArg nameArg : Option String) (r : IdentifyResult),
        identifyUser lookup create newId phoneArg nameArg = Except.ok r →
        r.payload.isNewUser = (r.payload.name == nameArg.getD "" && nameArg.getD "" != ""))
    ∧ (identifyUser (fun _ => Except.ok none) (fun _ => Except.ok ()) "uid-2"
          (some "+15550000001") none
        = Except.ok
            { payload := { userId := "uid-2", phoneNumber := "+15550000001", name := "",
                           isNewUser := false },
              created := some { id := "uid-2", phoneNumber := "+15550000001", name := "" },
              updated := none })
    ∧ (identifyUser
          (fun _ => Except.ok (some { id := "u9", phoneNumber := "+15550000002",
                                      name := "Jane Doe" }))
          (fun _ => Except.ok ()) "uid-3" (some "+15550000002") (some "Jane Doe")
        = Except.ok
            { payload := { userId := "u9", phoneNumber := "+15550000002", name := "Jane Doe",
                           isNewUser := true },
              created := none, updated := none }) := by
  refine ⟨?_, rfl, rfl⟩
  intro lookup create newId phoneArg nameArg r h
  unfold identifyUser at h
  dsimp only at h
  repeat' split at h
  all_goals
    first
      | exact absurd h (by intro hc; exact Except.noConfusion hc)
      | (injection h with h2; subst h2; rfl)

/-- Witness for C10 (first conjunct) at a concrete successful identify. -/
theorem isNewUser_eq_stored_name_match_witness :
    ({ payload := { userId := "uid-4", phoneNumber := "+15550000003", name := "Ann",
                    isNewUser := true },
       created := some { id := "uid-4", phoneNumber := "+15550000003", name := "Ann" },
       updated := none } : IdentifyResult).payload.isNewUser
      = (({ payload := { userId := "uid-4", phoneNumber := "+15550000003", name := "Ann",
                         isNewUser := true },
            created := some { id := "uid-4", phoneNumber := "+15550000003", name := "Ann" },
            updated := none } : IdentifyResult).payload.name == (some "Ann").getD ""
          && (some "Ann").getD "" != "") :=
  isNewUser_eq_stored_name_match.1 (fun _ => Except.ok none) (fun _ => Except.ok ())
    "uid-4" (some "+15550000003") (some "Ann") _ rfl

/-- Helper: the tool-execution loop executes every tool call of the batch, in
order, whatever the executor returns. -/
theorem runBatch_events {σ : Type} (exec : σ → ToolCallReq → Except String ExecResult × σ) :
    ∀ (s : σ) (tcs : List ToolCallReq),
      (runBatch exec s tcs).1 = tcs.map (fun tc => ChatEvent.toolExec tc.name) := by
  intro s tcs
  induction tcs generalizing s with
  | nil => rfl
  | cons tc rest ih => simp [runBatch, ih]

/-- C5: whenever a model response's tool batch signals end-of-call (a
successful `end_conversation` with `should_end = true`), the turn engine
executes every tool of that batch in order, then performs exactly one more
completion call without the tool catalog, and returns with the should-end
flag set; the trace ends there — no further tool-execution rounds happen and
the rest of the script is consulted only for the closing utterance. -/
theorem chat_end_signal_protocol {σ : Type}
    (exec : σ → ToolCallReq → Except String ExecResult × σ) (s : σ)
    (r : ModelResponse) (rest : List ModelResponse)
    (hend : (runBatch exec s r.toolCalls).2.1 = true) :
    chatLoop exec s (r :: rest)
      = (ChatEvent.completion true ::
          (r.toolCalls.map (fun tc => ChatEvent.toolExec tc.name)
            ++ [ChatEvent.completion false]),
         Except.ok { content := chatFinalContent rest, shouldEnd := true }) := by
  have hne : r.toolCalls.isEmpty = false := by
    cases htc : r.toolCalls with
    | nil => rw [htc] at hend; simp [runBatch] at hend
    | cons a l => rfl
  simp [chatLoop, hne, hend, runBatch_events]

/-- Witness for C5: a batch of one ordinary tool followed by
`end_conversation`, run against an executor that flags `should_end` — both
tools execute, then one no-tool completion, then termination. -/
theorem chat_end_signal_protocol_witness :
    chatLoop
        (fun (u : Unit) tc =>
          (Except.ok { shouldEndFlag := tc.name == "end_conversation" }, u)) ()
        [{ content := "",
           toolCalls := [{ id := "t0", name := "fetch_slots", args := "{}" },
                         { id := "t1", name := "end_conversation", args := "{}" }] }]
      = ([ChatEvent.completion true, ChatEvent.toolExec "fetch_slots",
          ChatEvent.toolExec "end_conversation", ChatEvent.completion false],
         Except.ok { content := "Thank you for calling. Goodbye!", shouldEnd := true }) :=
  chat_end_signal_protocol
    (fun (u : Unit) tc => (Except.ok { shouldEndFlag := tc.name == "end_conversation" }, u))
    ()
    { content := "",
      toolCalls := [{ id := "t0", name := "fetch_slots", args := "{}" },
                    { id := "t1", name := "end_conversation", args := "{}" }] }
    [] rfl

/-! ### Reminder-scheduler lemmas (towards C7) -/

/-- A threshold whose flag is already set never satisfies the firing
condition. -/
theorem fireCond_sent_false (t : Int) (nd : Bool) (rec : RemRecord) (th : RemType)
    (h : fireCond t nd rec th = true) : rec.sent th = false := by
  cases th <;> simp [fireCond, RemRecord.sent] at h ⊢ <;> simp [h.1.1]

/-- `countEv` distributes over append. -/
theorem countEv_append (a b : List (String × RemType)) (id : String) (th : RemType) :
    countEv (a ++ b) id th = countEv a id th + countEv b id th := by
  simp [countEv, List.filter_append]

/-- `countEv` is zero exactly when the event does not occur. -/
theorem countEv_eq_zero_iff (evs : List (String × RemType)) (id : String) (th : RemType) :
    countEv evs id th = 0 ↔ (id, th) ∉ evs := by
  simp only [countEv, List.length_eq_zero, List.filter_eq_nil_iff, decide_eq_true_eq]
  constructor
  · intro h hm
    exact h _ hm rfl
  · intro h p hp hpe
    exact h (hpe ▸ hp)

/-- An event occurs at most once in a duplicate-free event list. -/
theorem countEv_le_one_of_nodup (evs : List (String × RemType)) (h : evs.Nodup)
    (id : String) (th : RemType) : countEv evs id th ≤ 1 := by
  induction evs with
  | nil => simp [countEv]
  | cons p rest ih =>
    rcases List.nodup_cons.mp h with ⟨hp, hrest⟩
    by_cases hpe : p = (id, th)
    · subst hpe
      have h0 : countEv rest id th = 0 := (countEv_eq_zero_iff rest id th).mpr hp
      have hc : countEv ((id, th) :: rest) id th = countEv rest id th + 1 := by
        simp [countEv, List.filter_cons]
      rw [hc, h0]
    · have hc : countEv (p :: rest) id th = countEv rest id th := by
        simp [countEv, List.filter_cons, hpe]
      rw [hc]
      exact ih hrest

/-- Every event fired by `processEntry` carries the entry's key and a
threshold whose flag was not yet set. -/
theorem processEntry_events (inp : TickInput) (e : String × RemRecord) :
    ∀ p ∈ (processEntry inp e).2, p.1 = e.1 ∧ e.2.sent p.2 = false := by
  intro p hp
  unfold processEntry at hp
  cases hfe : inp.fetch e.1 with
  | error err => rw [hfe] at hp; simp at hp
  | ok o =>
    rw [hfe] at hp
    cases o with
    | none => simp at hp
    | some apt =>
      dsimp only at hp
      split at hp
      · simp at hp
      · split at hp <;>
        · simp only [List.mem_append] at hp
          rcases hp with (hp | hp) | hp <;> split at hp <;>
            simp only [List.mem_singleton, List.not_mem_nil] at hp <;>
            first
              | exact absurd hp (by simp)
              | (subst hp
                 exact ⟨rfl, fireCond_sent_false _ _ _ _ (by assumption)⟩)

/-- The events fired by `processEntry` for one entry are duplicate-free. -/
theorem processEntry_events_nodup (inp : TickInput) (e : String × RemRecord) :
    (processEntry inp e).2.Nodup := by
  unfold processEntry
  cases hfe : inp.fetch e.1 with
  | error err => simp
  | ok o =>
    cases o with
    | none => simp
    | some apt =>
      dsimp only
      split
      · simp
      · split <;> (split <;> split <;> split <;> simp)

/-- A surviving entry keeps its key, and its sent-flags only grow. -/
theorem processEntry_keep (inp : TickInput) (e e2 : String × RemRecord)
    (h : (processEntry inp e).1 = some e2) :
    e2.1 = e.1 ∧ ∀ th, e.2.sent th = true → e2.2.sent th = true := by
  unfold processEntry at h
  cases hfe : inp.fetch e.1 with
  | error err =>
    rw [hfe] at h
    simp only [Option.some.injEq] at h
    subst h
    exact ⟨rfl, fun th hth => hth⟩
  | ok o =>
    rw [hfe] at h
    cases o with
    | none => simp at h
    | some apt =>
      dsimp only at h
      split at h
      · simp at h
      · split at h
        · simp at h
        · simp only [Option.some.injEq] at h
          subst h
          refine ⟨rfl, fun th hth => ?_⟩
          cases th <;> simp [RemRecord.sent] at hth ⊢ <;> simp [hth]

/-- If an entry fires a threshold and survives the tick, the surviving record
has that threshold marked sent. -/
theorem processEntry_fired_marked (inp : TickInput) (e e2 : String × RemRecord)
    (th : RemType) (h : (processEntry inp e).1 = some e2)
    (hf : (e.1, th) ∈ (processEntry inp e).2) : e2.2.sent th = true := by
  unfold processEntry at h hf
  cases hfe : inp.fetch e.1 with
  | error err => rw [hfe] at hf; simp at hf
  | ok o =>
    rw [hfe] at h hf
    cases o with
    | none => simp at h
    | some apt =>
      dsimp only at h hf
      split at h
      · simp at h
      · rename_i hbooked
        rw [if_neg hbooked] at hf
        split at h
        · simp at h
        · rename_i hpast
          rw [if_neg hpast] at hf
          simp only [Option.some.injEq] at h
          subst h
          simp only [List.mem_append] at hf
          rcases hf with (hf | hf) | hf <;> split at hf <;>
            simp only [List.mem_singleton, List.not_mem_nil] at hf <;>
            (have hth : th = _ := congrArg Prod.snd hf
             subst hth
             simp only [RemRecord.sent]
             simp_all)

/-- A positive event count means the event occurs. -/
theorem countEv_pos_mem (evs : List (String × RemType)) (id : String) (th : RemType)
    (h : 1 ≤ countEv evs id th) : (id, th) ∈ evs := by
  by_contra hm
  rw [(countEv_eq_zero_iff evs id th).mpr hm] at h
  exact absurd h (by omega)

/-- A tick never adds keys to the tracking map. -/
theorem tick_keys_sublist (inp : TickInput) (s : RemState) :
    ((tick inp s).1.map Prod.fst).Sublist (s.map Prod.fst) := by
  induction s with
  | nil => simp [tick]
  | cons e rest ih =>
    dsimp [tick]
    cases hk : (processEntry inp e).1 with
    | none => exact ih.cons e.1
    | some e2 =>
      have he2 : e2.1 = e.1 := (processEntry_keep inp e e2 hk).1
      simpa [he2] using ih.cons₂ e.1

/-- No event is fired for an id that is not tracked. -/
theorem tick_count_zero_of_not_mem (inp : TickInput) (id : String) (th : RemType) :
    ∀ s : RemState, id ∉ s.map Prod.fst → countEv (tick inp s).2 id th = 0 := by
  intro s
  induction s with
  | nil => intro _; rfl
  | cons e rest ih =>
    intro hm
    simp only [List.map_cons, List.mem_cons] at hm
    push_neg at hm
    dsimp [tick]
    rw [countEv_append]
    have h1 : countEv (processEntry inp e).2 id th = 0 := by
      rw [countEv_eq_zero_iff]
      intro hmem
      exact hm.1 ((processEntry_events inp e _ hmem).1)
    rw [h1, ih hm.2]

/-- Once every tracked record for an id has a threshold marked sent, a tick
fires nothing for that id-threshold pair and preserves the property. -/
theorem tick_dead (inp : TickInput) (id : String) (th : RemType) :
    ∀ s : RemState, (∀ rec, (id, rec) ∈ s → rec.sent th = true) →
      countEv (tick inp s).2 id th = 0 ∧
        ∀ rec, (id, rec) ∈ (tick inp s).1 → rec.sent th = true := by
  intro s
  induction s with
  | nil => intro _; exact ⟨rfl, by simp [tick]⟩
  | cons e rest ih =>
    intro hdead
    have hdr : ∀ rec, (id, rec) ∈ rest → rec.sent th = true := fun rec hr =>
      hdead rec (List.mem_cons_of_mem e hr)
    obtain ⟨ihc, ihd⟩ := ih hdr
    dsimp [tick]
    constructor
    · rw [countEv_append, ihc]
      have h1 : countEv (processEntry inp e).2 id th = 0 := by
        rw [countEv_eq_zero_iff]
        intro hmem
        obtain ⟨hkey, hsent⟩ := processEntry_events inp e _ hmem
        have hse : e.2.sent th = true := by
          apply hdead e.2
          have : (id, e.2) = e := by
            rw [Prod.ext_iff]
            exact ⟨hkey, rfl⟩
          rw [this]
          exact List.mem_cons_self e rest
        rw [hse] at hsent
        exact absurd hsent (by simp)
      rw [h1]
    · intro rec hr
      cases hk : (processEntry inp e).1 with
      | none =>
        rw [hk] at hr
        exact ihd rec hr
      | some e2 =>
        rw [hk] at hr
        rcases List.mem_cons.mp hr with heq | hr2
        · obtain ⟨hid, hrec⟩ := Prod.ext_iff.mp heq
          obtain ⟨hkey, hmono⟩ := processEntry_keep inp e e2 hk
          have hse : e.2.sent th = true := by
            apply hdead e.2
            have : (id, e.2) = e := by
              rw [Prod.ext_iff]
              exact ⟨by rw [hid, hkey], rfl⟩
            rw [this]
            exact List.mem_cons_self e rest
          rw [← hrec] at hmono
          exact hmono th hse
        · exact ihd rec hr2

/-- With duplicate-free keys, one tick fires each (id, threshold) pair at most
once, and if it fires the pair, every surviving record for that id has the
threshold marked sent. -/
theorem tick_fired (inp : TickInput) (id : String) (th : RemType) :
    ∀ s : RemState, (s.map Prod.fst).Nodup →
      countEv (tick inp s).2 id th ≤ 1 ∧
        (1 ≤ countEv (tick inp s).2 id th →
          ∀ rec, (id, rec) ∈ (tick inp s).1 → rec.sent th = true) := by
  intro s
  induction s with
  | nil => intro _; exact ⟨by simp [tick, countEv], fun h => by simp [tick, countEv] at h⟩
  | cons e rest ih =>
    intro hnd
    simp only [List.map_cons, List.nodup_cons] at hnd
    obtain ⟨hkey, hndr⟩ := hnd
    dsimp [tick]
    by_cases hid : id = e.1
    · have hzrest : countEv (tick inp rest).2 id th = 0 :=
        tick_count_zero_of_not_mem inp id th rest (by rw [hid]; exact hkey)
      have hle2 : countEv (processEntry inp e).2 id th ≤ 1 :=
        countEv_le_one_of_nodup _ (processEntry_events_nodup inp e) id th
      constructor
      · rw [countEv_append, hzrest]
        omega
      · intro hpos rec hr
        rw [countEv_append, hzrest] at hpos
        have hmem : (id, th) ∈ (processEntry inp e).2 :=
          countEv_pos_mem _ id th (by omega)
        have hmem2 : (e.1, th) ∈ (processEntry inp e).2 := by rw [← hid]; exact hmem
        cases hk : (processEntry inp e).1 with
        | none =>
          rw [hk] at hr
          exfalso
          have hmm : id ∈ (tick inp rest).1.map Prod.fst :=
            List.mem_map_of_mem Prod.fst hr
          have hin := (tick_keys_sublist inp rest).subset hmm
          rw [hid] at hin
          exact hkey hin
        | some e2 =>
          rw [hk] at hr
          rcases List.mem_cons.mp hr with heq | hr2
          · obtain ⟨hid2, hrec⟩ := Prod.ext_iff.mp heq
            have hrec2 : rec = e2.2 := hrec
            rw [hrec2]
            exact processEntry_fired_marked inp e e2 th hk hmem2
          · exfalso
            have hmm : id ∈ (tick inp rest).1.map Prod.fst :=
              List.mem_map_of_mem Prod.fst hr2
            have hin := (tick_keys_sublist inp rest).subset hmm
            rw [hid] at hin
            exact hkey hin
    · have hz : countEv (processEntry inp e).2 id th = 0 := by
        rw [countEv_eq_zero_iff]
        intro hmem
        exact hid ((processEntry_events inp e _ hmem).1)
      obtain ⟨ihc, ihd⟩ := ih hndr
      constructor
      · rw [countEv_append, hz]
        omega
      · intro hpos rec hr
        rw [countEv_append, hz] at hpos
        cases hk : (processEntry inp e).1 with
        | none =>
          rw [hk] at hr
          exact ihd (by omega) rec hr
        | some e2 =>
          rw [hk] at hr
          rcases List.mem_cons.mp hr with heq | hr2
          · exfalso
            obtain ⟨hid2, _⟩ := Prod.ext_iff.mp heq
            exact hid (hid2.trans (processEntry_keep inp e e2 hk).1)
          · exact ihd (by omega) rec hr2

/-- Once dead, an id-threshold pair never fires over any run. -/
theorem runTicks_dead (id : String) (th : RemType) :
    ∀ (ticks : List TickInput) (s : RemState),
      (∀ rec, (id, rec) ∈ s → rec.sent th = true) →
      countEv (runTicks ticks s) id th = 0 := by
  intro ticks
  induction ticks with
  | nil => intro s _; rfl
  | cons inp more ih =>
    intro s hdead
    obtain ⟨hc, hd⟩ := tick_dead inp id th s hdead
    dsimp [runTicks]
    rw [countEv_append, hc, ih _ hd]

/-- C7: over any sequence of scheduler ticks — whatever instants they observe
and whatever the store returns at each tick — each tracked appointment fires
each reminder threshold at most once: once fired, the threshold is marked
sent in the appointment's reminder record and never fires again. -/
theorem reminder_threshold_fires_at_most_once (ticks : List TickInput) (s0 : RemState)
    (hnd : (s0.map Prod.fst).Nodup) (id : String) (th : RemType) :
    countEv (runTicks ticks s0) id th ≤ 1 := by
  induction ticks generalizing s0 with
  | nil => simp [runTicks, countEv]
  | cons inp more ih =>
    have hnd2 : (((tick inp s0).1).map Prod.fst).Nodup :=
      List.Nodup.sublist (tick_keys_sublist inp s0) hnd
    obtain ⟨hle, hmark⟩ := tick_fired inp id th s0 hnd
    dsimp [runTicks]
    rw [countEv_append]
    by_cases hpos : 1 ≤ countEv (tick inp s0).2 id th
    · rw [runTicks_dead id th more (tick inp s0).1 (hmark hpos)]
      omega
    · have := ih (tick inp s0).1 hnd2
      omega

/-- Witness for C7: one appointment tracked with fresh flags, observed by
three ticks all inside the 24-hour window — the 24-hour threshold fires
exactly once, hence at most once. -/
theorem reminder_threshold_fires_at_most_once_witness :
    countEv
        (runTicks
          [{ now := 0, fetch := fun _ => Except.ok (some aptA) },
           { now := 1, fetch := fun _ => Except.ok (some aptA) },
           { now := 2, fetch := fun _ => Except.ok (some aptA) }]
          [("a1", { sent24 := false, sent1 := false, sentDay := false })])
        "a1" RemType.h24 ≤ 1 :=
  reminder_threshold_fires_at_most_once _ _ (by simp) "a1" RemType.h24

end VoiceAgent
